import Mathlib

/-!
Verification of the hodr accessibility bot's scenario execution engine.

The development shallowly embeds the JavaScript sources (`src/server.js` and
the two unnamed driver variants) into Lean:

* the Ollama conversation client becomes explicit state passing over a
  message list, with the remote chat endpoint abstracted as a pure function
  `chat : List Message → Message`;
* parsed JSON values are restricted to the shapes the engine actually
  manipulates: objects with string values (actions, `actionTaken` patterns)
  and strings;
* `JSON.parse` of a raw model reply is an external browser builtin and is
  abstracted as a parameter `parse : String → Option ActionPlan`
  (`none` models a thrown syntax error);
* the live page is abstracted at the automation boundary as a function
  from a selector string to the matching DOM elements in document order,
  and element handles become an explicit `Option DomElement`;
* `async`/`await` control flow is strictly sequential in the source, so it
  collapses to ordinary sequential evaluation.
-/

set_option autoImplicit false

/-! ### Conversation client (`OllamaClient` in `src/server.js` and the
multi-assertion driver; both copies are textually identical) -/

/-- One chat message, tagged with a role (`system`, `user`, `assistant`). -/
structure Message where
  role : String
  content : String
deriving DecidableEq, Repr

/-- The mutable state of an `OllamaClient`: its ordered message history. -/
structure ClientState where
  messages : List Message
deriving DecidableEq, Repr

/-- The state a freshly constructed `OllamaClient` starts in
(`this.messages = []` in the constructor). -/
def initialClient : ClientState := ⟨[]⟩

/-- Result of `OllamaClient.setup`: the updated history plus the request
(the message list) handed to the remote chat call.  The remote reply is
awaited and discarded by the source, so it does not appear in the state. -/
structure SetupResult where
  state : ClientState
  request : List Message
deriving Repr

/-- Result of `OllamaClient.send`: updated history, the assistant reply
appended to it, and the request handed to the remote chat call. -/
structure SendResult where
  state : ClientState
  reply : Message
  request : List Message
deriving Repr

namespace OllamaClient

/-- `setup(setupPrompt)`: reset `this.messages` to empty, push one system
message, and perform one chat exchange with the current history whose reply
is awaited but never pushed. -/
def setup (chat : List Message → Message) (prompt : String) (_st : ClientState) :
    SetupResult :=
  let msgs : List Message := [⟨"system", prompt⟩]
  let _primingReply := chat msgs
  ⟨⟨msgs⟩, msgs⟩

/-- `send(message)`: push a user message, chat with the entire history,
push the assistant reply, and return it. -/
def send (chat : List Message → Message) (st : ClientState) (text : String) :
    SendResult :=
  let msgs := st.messages ++ [⟨"user", text⟩]
  let reply := chat msgs
  ⟨⟨msgs ++ [reply]⟩, reply, msgs⟩

end OllamaClient

/-! ### Parsed JSON values

The engine only ever manipulates two shapes of parsed JSON: objects whose
values are strings (actions in the plan, `actionTaken` patterns) and plain
strings (`testValue` of the response assertions).  A JS object is an ordered
association list: `for ... in` over non-numeric string keys visits them in
insertion order, which the list order models. -/

/-- A parsed JS object with string values, in key insertion order. -/
abbrev Obj := List (String × String)

/-- A parsed JSON value as used by the engine. -/
inductive JsVal where
  | str (s : String)
  | obj (kvs : Obj)
deriving DecidableEq, Repr

/-- Property access `o[k]` on a parsed object; `none` models `undefined`.
Objects produced by `JSON.parse` have pairwise distinct keys, so first
match and last match coincide. -/
def jsLookup (o : Obj) (k : String) : Option String :=
  o.lookup k

/-- An action plan: the model reply parsed into an array of actions. -/
abbrev ActionPlan := List Obj

/-! ### `JSON.stringify` for the shapes above -/

/-- One hexadecimal digit, lower case, as produced by `JSON.stringify`
for control-character escapes. -/
def hexDigit (n : Nat) : Char :=
  if n < 10 then Char.ofNat (48 + n) else Char.ofNat (87 + n)

/-- Four-digit hexadecimal rendering used in `\uXXXX` escapes. -/
def hex4 (n : Nat) : String :=
  String.mk [hexDigit (n / 4096 % 16), hexDigit (n / 256 % 16),
    hexDigit (n / 16 % 16), hexDigit (n % 16)]

/-- `JSON.stringify` escaping of a single character. -/
def jsonEscapeChar (c : Char) : String :=
  if c = '"' then "\\\""
  else if c = '\\' then "\\\\"
  else if c = '\n' then "\\n"
  else if c = '\t' then "\\t"
  else if c = '\r' then "\\r"
  else if c = '\x08' then "\\b"
  else if c = '\x0c' then "\\f"
  else if c.toNat < 32 then "\\u" ++ hex4 c.toNat
  else String.singleton c

/-- A JSON string literal with its surrounding quotes. -/
def jsonQuote (s : String) : String :=
  "\"" ++ String.join (s.data.map jsonEscapeChar) ++ "\""

/-- Comma-separated join, as between JSON array and object members. -/
def commaJoin : List String → String
  | [] => ""
  | [s] => s
  | s :: rest => s ++ "," ++ commaJoin rest

/-- `JSON.stringify` of one action object; keys keep insertion order. -/
def stringifyObj (o : Obj) : String :=
  "\x7b" ++ commaJoin (o.map (fun kv => jsonQuote kv.1 ++ ":" ++ jsonQuote kv.2)) ++ "\x7d"

/-- `JSON.stringify(response)`: the canonical serialization of a plan. -/
def stringifyPlan (plan : ActionPlan) : String :=
  "[" ++ commaJoin (plan.map stringifyObj) ++ "]"

/-! ### JS `String.prototype.includes` -/

/-- Whether `t` is a prefix of `l`, on character lists. -/
def charsPre (t l : List Char) : Bool :=
  match t, l with
  | [], _ => true
  | _ :: _, [] => false
  | c :: cs, d :: ds => c == d && charsPre cs ds

/-- Whether `t` occurs as a contiguous run inside `s`, on character lists. -/
def charsSub (s t : List Char) : Bool :=
  match s with
  | [] => t.isEmpty
  | _ :: rest => charsPre t s || charsSub rest t

/-- JS `s.includes(t)`: substring containment (the empty string is
contained in every string). -/
def jsIncludes (s t : String) : Bool :=
  charsSub s.data t.data

/-! ### `checkAction` and the assertion evaluator (multi-assertion driver) -/

/-- A success side effect (`onSuccess` in a scenario assertion).  The engine
destructures it into these four fields; it is executed against the live page
and never influences control flow, so it is carried around as inert data. -/
structure SuccessEffect where
  action : Option String
  selector : Option String
  value : Option String
  valueType : Option String
deriving DecidableEq, Repr

/-- One entry of a step's `success` list. -/
structure Assertion where
  condition : Option String
  testValue : JsVal
  onSuccess : Option SuccessEffect
  description : String
deriving DecidableEq, Repr

/-- The `for (let key in test.testValue)` body of `checkAction` when the
pattern is an object: keys are visited in insertion order; the key
`description` returns `true` for the whole pattern immediately; any other
key must be strictly equal on the action. -/
def checkKeys (a : Obj) : List (String × String) → Bool
  | [] => true
  | (k, v) :: rest =>
    if k = "description" then true
    else if jsLookup a k != some v then false
    else checkKeys a rest

/-- The same loop when the pattern is a string: `for ... in` over a string
visits its index keys `"0"`, `"1"`, ... whose values are the one-character
strings; no index key equals `description`. -/
def checkStrKeys (a : Obj) : Nat → List Char → Bool
  | _, [] => true
  | i, c :: cs =>
    if jsLookup a (toString i) != some (String.singleton c) then false
    else checkStrKeys a (i + 1) cs

/-- `checkAction(actionElement, test)`: does one action of the plan match
the `actionTaken` pattern `test.testValue`? -/
def checkAction (a : Obj) (tv : JsVal) : Bool :=
  match tv with
  | .obj kvs => checkKeys a kvs
  | .str s => checkStrKeys a 0 s.data

/-- The `switch (test?.condition)` inside the multi-assertion result loop:
`true` means the branch completed without throwing, `false` that it threw
`test failed`.  A missing or unrecognized condition hits no case and
passes. -/
def evalAssertion (plan : ActionPlan) (t : Assertion) : Bool :=
  match t.condition with
  | some c =>
    if c = "responseIsEqual" then
      match t.testValue with
      | .str s => stringifyPlan plan == s
      | .obj _ => false
    else if c = "responseIncludes" then
      jsIncludes (stringifyPlan plan)
        (match t.testValue with
         | .str s => s
         | .obj _ => "[object Object]")
    else if c = "actionTaken" then
      plan.any (fun a => checkAction a t.testValue)
    else true
  | none => true

/-- The `for (let test of successObject)` loop of the multi-assertion
driver: evaluate assertions in declared order; the first failure returns
the sentinel `"_failed"` at once; each pass performs its `onSuccess`
dispatch before the next assertion runs; if the loop completes the step
returns its declared `next`.  The second component is the ordered list of
assertions whose pass branch (success log plus `onSuccess` dispatch) was
executed. -/
def runAssertions (plan : ActionPlan) (next : String) :
    List Assertion → String × List Assertion
  | [] => (next, [])
  | t :: rest =>
    if evalAssertion plan t then
      let r := runAssertions plan next rest
      (r.1, t :: r.2)
    else ("_failed", [])

/-! ### Action plan acquisition with a single corrective retry

`runScenario` first re-primes the client with the fixed system prompt, then
asks for a plan and tries `JSON.parse`; one corrective re-prompt is sent if
that throws, and a second parse failure throws an unrecoverable error.  The
system prompt is a long block of fixed instruction prose that no control
decision ever inspects, so only its opening sentence is carried here. -/

/-- The fixed system prompt handed to `setup` at the start of every step
(abbreviated to its first sentence; the text is inert data). -/
def setupPrompt : String :=
  "You are a visually disabled user who uses a screen reader."

/-- The initial plan request sent for a step. -/
def firstPlanRequest (sro instruction : String) : String :=
  "Here is the screen reader text you hear: " ++ sro ++
    ".\nHere is your task: " ++ instruction ++
    ".\nPlease generate the JSON array of actions you would take on the page to perform the task I gave you.  Do not include any other information in your response."

/-- The single corrective follow-up sent when the first reply fails to
parse. -/
def correctivePlanRequest (sro instruction : String) : String :=
  "No, I said not to include any other information in your response.  I only want the JSON array I described in the initial prompt.  Here is the screen reader text you hear: " ++
    sro ++ ".\nHere is the instruction: " ++ instruction ++
    ".\nWhat action would you take on the page?"

/-- The unrecoverable error thrown when the second parse also fails. -/
inductive ScenarioError where
  | aiDidNotComply
deriving DecidableEq, Repr

/-- Client state after the per-step `setup(setupPrompt)` call. -/
def planClient0 (chat : List Message → Message) (st : ClientState) : ClientState :=
  (OllamaClient.setup chat setupPrompt st).state

/-- The first `send` of a step: the plan request. -/
def planSend1 (chat : List Message → Message) (sro instruction : String)
    (st : ClientState) : SendResult :=
  OllamaClient.send chat (planClient0 chat st) (firstPlanRequest sro instruction)

/-- The second `send` of a step, performed only when the first reply fails
to parse: the corrective request. -/
def planSend2 (chat : List Message → Message) (sro instruction : String)
    (st : ClientState) : SendResult :=
  OllamaClient.send chat (planSend1 chat sro instruction st).state
    (correctivePlanRequest sro instruction)

/-- Outcome of the plan acquisition phase, instrumented with how many
messages were sent and how many parse attempts were made. -/
structure PlanFetch where
  result : Except ScenarioError ActionPlan
  client : ClientState
  sends : Nat
  parses : Nat

/-- The setup-send-parse-retry prologue shared verbatim by `runScenario`
in `src/server.js` and in the multi-assertion driver. -/
def getActionPlan (chat : List Message → Message)
    (parse : String → Option ActionPlan) (sro instruction : String)
    (st : ClientState) : PlanFetch :=
  let s1 := planSend1 chat sro instruction st
  match parse s1.reply.content with
  | some plan => ⟨.ok plan, s1.state, 1, 1⟩
  | none =>
    let s2 := planSend2 chat sro instruction st
    match parse s2.reply.content with
    | some plan => ⟨.ok plan, s2.state, 2, 2⟩
    | none => ⟨.error .aiDidNotComply, s2.state, 2, 2⟩

/-! ### Element resolution and the action loop -/

/-- The `roleMap` table mapping a model-reported role to the CSS selector
list queried for it. -/
def roleMap : List (String × String) :=
  [("Heading level 1", "h1"),
   ("Heading level 2", "h2"),
   ("Heading level 3", "h3"),
   ("Heading level 4", "h4"),
   ("Heading level 5", "h5"),
   ("Heading level 6", "h6"),
   ("Button", "button"),
   ("Textbox", "input[type='text'], input[type='email'], input[type='password'], textarea"),
   ("Link", "a")]

/-- What the in-page predicate reads off one DOM element: its text content
and its `aria-label` and `placeholder` attributes (absent attributes are
`none`, matching the optional-chaining guard in the source). -/
structure DomElement where
  textContent : String
  ariaLabel : Option String
  placeholder : Option String
deriving DecidableEq, Repr

/-- A live page at the automation boundary: the elements matching a CSS
selector string, in document order.  A selector built from an unmapped
role (`querySelectorAll(String(undefined))`) matches no element of an HTML
document, which the `none` branch of `resolveElement` mirrors. -/
abbrev Page := String → List DomElement

/-- `actionElement.role`, with JS string coercion of `undefined` as used
in log lines. -/
def jsRole (a : Obj) : String := (jsLookup a "role").getD "undefined"

/-- `actionElement.target`; a missing target is coerced to the string
`"undefined"` by `includes`, as in JS. -/
def jsTarget (a : Obj) : String := (jsLookup a "target").getD "undefined"

/-- The predicate evaluated in the page: does the element's text content,
`aria-label`, or `placeholder` contain the target as a substring? -/
def elementMatches (el : DomElement) (target : String) : Bool :=
  jsIncludes el.textContent target ||
    (match el.ariaLabel with
     | some v => jsIncludes v target
     | none => false) ||
    (match el.placeholder with
     | some v => jsIncludes v target
     | none => false)

/-- The `page.evaluateHandle` body: query the selector for the action's
role and take the first element whose text/label/placeholder contains the
target. -/
def resolveElement (page : Page) (a : Obj) : Option DomElement :=
  match (jsLookup a "role").bind (fun r => roleMap.lookup r) with
  | none => none
  | some sel => (page sel).find? (fun el => elementMatches el (jsTarget a))

/-- What the action loop did for one action of the plan. -/
inductive ActionOutcome where
  | notFound (role target : String)
  | clicked (role target : String)
  | typed (role target value : String)
  | unknown (action : String)
deriving DecidableEq, Repr

/-- One iteration of the `for (let actionElement of response)` loop. -/
def actionOutcome (page : Page) (a : Obj) : ActionOutcome :=
  match resolveElement page a with
  | none => .notFound (jsRole a) (jsTarget a)
  | some _el =>
    match jsLookup a "action" with
    | some "click" => .clicked (jsRole a) (jsTarget a)
    | some "type" => .typed (jsRole a) (jsTarget a) ((jsLookup a "value").getD "undefined")
    | other => .unknown (other.getD "undefined")

/-- The whole action loop: every action of the plan is processed in order;
an unresolved action is logged and skipped (`continue`), never aborting
the loop. -/
def runActions (page : Page) : ActionPlan → List ActionOutcome
  | [] => []
  | a :: rest => actionOutcome page a :: runActions page rest

/-! ### The two per-step drivers -/

/-- A step of the multi-assertion scenario schema. -/
structure Step where
  instruction : String
  url : Option String
  success : List Assertion
  next : String

/-- What one execution of the multi-assertion `runScenario` produced. -/
structure StepRun where
  result : String
  outcomes : List ActionOutcome
  fired : List Assertion
  client : ClientState

/-- `runScenario` of the multi-assertion driver: acquire a plan (with one
corrective retry), execute every action of the plan, then evaluate the
assertion list; the returned name is `step.next` or `"_failed"`. -/
def runScenarioStep (chat : List Message → Message)
    (parse : String → Option ActionPlan) (page : Page) (sro : String)
    (step : Step) (st : ClientState) : Except ScenarioError StepRun :=
  match (getActionPlan chat parse sro step.instruction st).result with
  | .error e => .error e
  | .ok plan =>
    .ok ⟨(runAssertions plan step.next step.success).1, runActions page plan,
      (runAssertions plan step.next step.success).2,
      (getActionPlan chat parse sro step.instruction st).client⟩

/-- A step of the single-assertion scenario schema used by
`src/server.js`: `success` is one optional assertion object. -/
structure ServerStep where
  instruction : String
  url : Option String
  success : Option Assertion
  next : String

/-- The `switch (successObject?.condition)` of `src/server.js`: only the
two response conditions are recognized; anything else (including
`actionTaken` and a missing assertion) falls to the default and passes. -/
def serverCheckSuccess (plan : ActionPlan) (succ : Option Assertion) : Bool :=
  match succ with
  | none => true
  | some t =>
    match t.condition with
    | some c =>
      if c = "responseIsEqual" then
        match t.testValue with
        | .str s => stringifyPlan plan == s
        | .obj _ => false
      else if c = "responseIncludes" then
        jsIncludes (stringifyPlan plan)
          (match t.testValue with
           | .str s => s
           | .obj _ => "[object Object]")
      else true
    | none => true

/-- What one execution of the `src/server.js` `runScenario` produced. -/
structure ServerStepRun where
  result : String
  outcomes : List ActionOutcome
  client : ClientState

/-- `runScenario` of `src/server.js`: acquire a plan exactly as the other
driver does, but evaluate the single success condition FIRST and return
`"_failed"` before the action loop runs; only on success are the plan's
actions executed. -/
def serverRunStep (chat : List Message → Message)
    (parse : String → Option ActionPlan) (page : Page) (sro : String)
    (step : ServerStep) (st : ClientState) : Except ScenarioError ServerStepRun :=
  match (getActionPlan chat parse sro step.instruction st).result with
  | .error e => .error e
  | .ok plan =>
    if serverCheckSuccess plan step.success then
      .ok ⟨step.next, runActions page plan,
        (getActionPlan chat parse sro step.instruction st).client⟩
    else
      .ok ⟨"_failed", [], (getActionPlan chat parse sro step.instruction st).client⟩

/-! ### Accessibility projector (`generateScreenReaderOutput`) -/

/-- A node of the accessibility snapshot: `role`, `name`, `description`
and `level` may each be absent, and children are ordered. -/
inductive AXNode where
  | mk (role : Option String) (name : Option String)
      (description : Option String) (level : Option Nat)
      (children : List AXNode)

/-- The `role` field of a node. -/
def AXNode.role : AXNode → Option String
  | .mk r _ _ _ _ => r

/-- JS `a || b` on an optional string: `null`, `undefined` and `""` are
falsy and fall through to the default. -/
def jsOr (o : Option String) (d : String) : String :=
  match o with
  | some s => if s = "" then d else s
  | none => d

/-- JS `level || 1`: an absent level, like a zero one, renders as 1. -/
def levelOr1 (l : Option Nat) : Nat :=
  match l with
  | some n => if n = 0 then 1 else n
  | none => 1

/-- JS `role.charAt(0).toUpperCase() + role.slice(1)`. -/
def capitalizeJs (s : String) : String :=
  match s.data with
  | [] => ""
  | c :: cs => String.mk (c.toUpper :: cs)

/-- The `switch (role)` phrasing table. -/
def rolePhrase (role : String) (name description : Option String)
    (level : Option Nat) : String :=
  if role = "heading" then
    "Heading level " ++ toString (levelOr1 level) ++ ", " ++ jsOr name "Unnamed heading"
  else if role = "button" then "Button, " ++ jsOr name "Unnamed button"
  else if role = "link" then "Link, " ++ jsOr name "Unnamed link"
  else if role = "text" then jsOr name (jsOr description "")
  else if role = "checkbox" then "Checkbox, " ++ jsOr name "Unnamed checkbox"
  else if role = "radio" then "Radio button, " ++ jsOr name "Unnamed radio button"
  else if role = "textbox" then "Textbox, " ++ jsOr name "Unnamed textbox"
  else capitalizeJs role ++ ", " ++ jsOr name "Unnamed"

/-- The trailing `if (description) output += ", " + description`. -/
def descSuffix (d : Option String) : String :=
  match d with
  | some s => if s = "" then "" else ", " ++ s
  | none => ""

/-- `'  '.repeat(depth)`. -/
def indent (depth : Nat) : String :=
  String.join (List.replicate depth "  ")

/-- The full text a node with truthy role contributes for itself:
indentation, phrase, optional description suffix. -/
def nodeLine (r : String) (name description : Option String)
    (level : Option Nat) (depth : Nat) : String :=
  indent depth ++ rolePhrase r name description level ++ descSuffix description

mutual

/-- `generateScreenReaderOutput(node, depth)` (identical in all three
source files): a truthy role contributes one newline-terminated line, then
the children are processed at `depth + 1` regardless of the role. -/
def generateScreenReaderOutput : AXNode → Nat → String
  | .mk role name description level children, depth =>
    (match role with
     | none => ""
     | some r => if r = "" then "" else nodeLine r name description level depth ++ "\n") ++
      generateChildrenOutput children (depth + 1)

/-- The `for (const child of children)` accumulation. -/
def generateChildrenOutput : List AXNode → Nat → String
  | [], _ => ""
  | c :: cs, d => generateScreenReaderOutput c d ++ generateChildrenOutput cs d

end

/-- The projector applied to a possibly-null snapshot
(`if (!node) return ''`). -/
def screenReaderProjection : Option AXNode → String
  | none => ""
  | some n => generateScreenReaderOutput n 0

mutual

/-- The projected output of a node, as the list of the lines it
contributes: one entry per truthy-role node, in pre-order. -/
def srLines : AXNode → Nat → List String
  | .mk role name description level children, depth =>
    (match role with
     | none => []
     | some r => if r = "" then [] else [nodeLine r name description level depth]) ++
      srLinesList children (depth + 1)

/-- Line lists of a sibling sequence, in snapshot order. -/
def srLinesList : List AXNode → Nat → List String
  | [], _ => []
  | c :: cs, d => srLines c d ++ srLinesList cs d

end

mutual

/-- The number of truthy-role (non-null, non-empty) nodes of a tree. -/
def countTruthyRole : AXNode → Nat
  | .mk role _ _ _ children =>
    (match role with
     | none => 0
     | some r => if r = "" then 0 else 1) + countTruthyRoleList children

/-- The same count over a sibling sequence. -/
def countTruthyRoleList : List AXNode → Nat
  | [] => 0
  | c :: cs => countTruthyRole c + countTruthyRoleList cs

end

/-- Concatenation of a list of strings. -/
def catLines : List String → String
  | [] => ""
  | l :: rest => l ++ catLines rest

/-! ### Scenario state machine (the entry loop of the multi-assertion
driver) -/

/-- The external world of one loop iteration: the chat endpoint, the JSON
parser, the live page, and the accessibility snapshot it returns. -/
structure StepEnv where
  chat : List Message → Message
  parse : String → Option ActionPlan
  page : Page
  tree : Option AXNode

/-- How the scenario run ended: the final step name after the loop exits
normally, or the unrecoverable parse error propagating out. -/
inductive RunExit where
  | finished (final : String) (iters : Nat)
  | fatal (iters : Nat)
deriving DecidableEq, Repr

/-- Number of loop iterations the run performed before exiting. -/
def RunExit.iters : RunExit → Nat
  | .finished _ n => n
  | .fatal n => n

/-- The `while (step && step !== "_end" && step !== "_failed")` loop:
look the step up, make the declared URL sticky, halt on a missing URL or
an unknown step name, otherwise run the step and branch on the returned
name.  `fuel` is an artifact of the embedding; the termination theorem
shows a bounded amount of it suffices.  `k` counts iterations. -/
def mainLoop (steps : List (String × Step)) (env : Nat → StepEnv) :
    Nat → String → Option String → ClientState → Nat → Option RunExit
  | 0, _, _, _, _ => none
  | fuel + 1, step, url, st, k =>
    if step = "" || step = "_end" || step = "_failed" then
      some (.finished step k)
    else
      let stepObject := steps.lookup step
      let url' := match stepObject with
        | some so => match so.url with
          | some u => some u
          | none => url
        | none => url
      match url' with
      | none => some (.finished step k)
      | some _ =>
        match stepObject with
        | none => some (.finished step k)
        | some so =>
          let e := env k
          match runScenarioStep e.chat e.parse e.page
              (screenReaderProjection e.tree) so st with
          | .error _ => some (.fatal k)
          | .ok r => mainLoop steps env fuel r.result url' r.client (k + 1)

/-- Whether the loop exits immediately at `s`: a falsy or reserved name,
or a name with no entry in the step table. -/
def terminalStep (steps : List (String × Step)) (s : String) : Bool :=
  s = "" || s = "_end" || s = "_failed" || (steps.lookup s).isNone

/-- Length of the longest path from `s` to a terminal state along
`next` pointers, computed with fuel: `none` means no terminal state is
reached within `f` edges (in particular, whenever the reachable part of
the graph has a cycle avoiding the terminals).  Side edges to `_failed`
only produce strictly shorter paths, so the `next` chain is the longest
path. -/
def stepHeight (steps : List (String × Step)) : Nat → String → Option Nat
  | 0, s => if terminalStep steps s then some 0 else none
  | f + 1, s =>
    if terminalStep steps s then some 0
    else
      match steps.lookup s with
      | none => some 0
      | some so => (stepHeight steps f so.next).map (· + 1)

/-! ### Concrete fixtures for evaluating the theorems -/

/-- A chat endpoint that always replies with the literal text `[]`. -/
def chatEmptyArray : List Message → Message :=
  fun _ => ⟨"assistant", "[]"⟩

/-- A parse function accepting exactly the reply `[]` as the empty plan. -/
def parseEmptyArray : String → Option ActionPlan :=
  fun s => if s = "[]" then some [] else none

/-- A parse function on which every reply fails to parse. -/
def parseNothing : String → Option ActionPlan :=
  fun _ => none

/-- A page with no elements behind any selector. -/
def emptyPage : Page := fun _ => []

/-- A single-action plan whose action has role `Link`. -/
def linkPlan : ActionPlan := [[("role", "Link")]]

/-- An `actionTaken` assertion whose pattern demands role `Button`. -/
def roleButtonAssert : Assertion :=
  ⟨some "actionTaken", .obj [("role", "Button")], none, "role is Button"⟩

/-- The same pattern with a `description` key inserted before `role`. -/
def descFirstButtonAssert : Assertion :=
  ⟨some "actionTaken", .obj [("description", "x"), ("role", "Button")], none,
    "role is Button"⟩

/-- An assertion with no condition: it always passes. -/
def noCondAssert : Assertion := ⟨none, .str "ignored", none, "always passes"⟩

/-- A `responseIsEqual` assertion that no plan serialization of the
fixtures matches. -/
def neverEqualAssert : Assertion :=
  ⟨some "responseIsEqual", .str "nope", none, "serialization equals nope"⟩

/-- A `responseIsEqual` assertion matching the serialization of the empty
plan. -/
def emptyPlanEqualAssert : Assertion :=
  ⟨some "responseIsEqual", .str "[]", none, "serialization equals the empty array"⟩

/-- An `actionTaken` assertion with an empty pattern object. -/
def emptyPatternAssert : Assertion :=
  ⟨some "actionTaken", .obj [], none, "some action was taken"⟩

/-- An action naming a role absent from `roleMap`. -/
def unmappedRoleAction : Obj := [("role", "Frobnicator"), ("target", "X")]

/-- The model reply and plan of the cross-driver comparison: one click on
the Submit button. -/
def submitClickPlan : ActionPlan :=
  [[("action", "click"), ("role", "Button"), ("target", "Submit"),
    ("value", "leftMouseButton")]]

/-- A chat endpoint that always replies with the marker text `PLAN`. -/
def chatPlanMarker : List Message → Message :=
  fun _ => ⟨"assistant", "PLAN"⟩

/-- A parse function mapping the marker reply to `submitClickPlan`. -/
def parsePlanMarker : String → Option ActionPlan :=
  fun s => if s = "PLAN" then some submitClickPlan else none

/-- A page with one Submit button behind the `button` selector. -/
def submitPage : Page :=
  fun sel => if sel = "button" then [⟨"Submit", none, none⟩] else []

/-- The cross-driver comparison step in the single-assertion schema. -/
def submitServerStep : ServerStep :=
  ⟨"click submit", some "http://x", some neverEqualAssert, "nextStep"⟩

/-- The cross-driver comparison step in the multi-assertion schema. -/
def submitStep : Step :=
  ⟨"click submit", some "http://x", [neverEqualAssert], "nextStep"⟩

/-- A one-step graph: `_start` goes straight to `_end` with no
assertions. -/
def straightSteps : List (String × Step) :=
  [("_start", ⟨"do nothing", some "http://x", [], "_end"⟩)]

/-- A constant environment built from the fixtures above. -/
def straightEnv : Nat → StepEnv :=
  fun _ => ⟨chatEmptyArray, parseEmptyArray, emptyPage, none⟩

/-! ### Helper lemmas -/

theorem charsPre_iff (t l : List Char) :
    charsPre t l = true ↔ ∃ rest, l = t ++ rest := by
  induction t generalizing l with
  | nil => simp [charsPre]
  | cons c cs ih =>
    cases l with
    | nil => simp [charsPre]
    | cons d ds =>
      simp only [charsPre, Bool.and_eq_true, beq_iff_eq, ih, List.cons_append,
        List.cons.injEq]
      constructor
      · rintro ⟨rfl, rest, rfl⟩
        exact ⟨rest, rfl, rfl⟩
      · rintro ⟨rest, rfl, rfl⟩
        exact ⟨rfl, rest, rfl⟩

theorem charsSub_iff (s t : List Char) :
    charsSub s t = true ↔ ∃ pre post, s = pre ++ t ++ post := by
  induction s with
  | nil =>
    simp only [charsSub, List.isEmpty_iff]
    constructor
    · rintro rfl
      exact ⟨[], [], rfl⟩
    · rintro ⟨pre, post, h⟩
      rcases List.append_eq_nil.mp (List.append_eq_nil.mp h.symm).1 with ⟨-, ht⟩
      exact ht
  | cons c rest ih =>
    simp only [charsSub, Bool.or_eq_true, charsPre_iff, ih]
    constructor
    · rintro (⟨r, hr⟩ | ⟨pre, post, hsub⟩)
      · exact ⟨[], r, by simpa using hr⟩
      · exact ⟨c :: pre, post, by simp [hsub]⟩
    · rintro ⟨pre, post, h⟩
      cases pre with
      | nil => exact .inl ⟨post, by simpa using h⟩
      | cons p ps =>
        right
        refine ⟨ps, post, ?_⟩
        have h' : c :: rest = p :: (ps ++ t ++ post) := by simpa using h
        have := (List.cons.injEq .. ▸ h').2
        simpa [List.append_assoc] using this

/-- `jsIncludes` really is substring containment, stated on the character
data of the strings. -/
theorem jsIncludes_iff (s t : String) :
    jsIncludes s t = true ↔ ∃ pre post, s.data = pre ++ t.data ++ post :=
  charsSub_iff s.data t.data

/-- The result name coming out of the assertion loop is always either the
step's declared `next` or the sentinel `"_failed"`. -/
theorem runAssertions_result (plan : ActionPlan) (next : String)
    (tests : List Assertion) :
    (runAssertions plan next tests).1 = next ∨
      (runAssertions plan next tests).1 = "_failed" := by
  induction tests with
  | nil => exact .inl rfl
  | cons t rest ih =>
    by_cases h : evalAssertion plan t = true
    · simpa [runAssertions, h] using ih
    · simp [runAssertions, h]

theorem catLines_append (a b : List String) :
    catLines (a ++ b) = catLines a ++ catLines b := by
  induction a with
  | nil => simp [catLines]
  | cons x xs ih => simp [catLines, ih, String.append_assoc]

mutual

theorem generate_eq_catLines : ∀ (n : AXNode) (d : Nat),
    generateScreenReaderOutput n d = catLines ((srLines n d).map (fun l => l ++ "\n"))
  | .mk role name description level children, d => by
    have hc := generateChildren_eq_catLines children (d + 1)
    cases role with
    | none => simpa [generateScreenReaderOutput, srLines] using hc
    | some r =>
      by_cases hr : r = "" <;>
        simp [generateScreenReaderOutput, srLines, hr, hc, catLines,
          catLines_append, String.append_assoc]

theorem generateChildren_eq_catLines : ∀ (l : List AXNode) (d : Nat),
    generateChildrenOutput l d = catLines ((srLinesList l d).map (fun s => s ++ "\n"))
  | [], d => by simp [generateChildrenOutput, srLinesList, catLines]
  | c :: cs, d => by
    have h1 := generate_eq_catLines c d
    have h2 := generateChildren_eq_catLines cs d
    simp [generateChildrenOutput, srLinesList, h1, h2, catLines_append]

end

mutual

theorem srLines_length_eq : ∀ (n : AXNode) (d : Nat),
    (srLines n d).length = countTruthyRole n
  | .mk role name description level children, d => by
    have hc := srLinesList_length_eq children (d + 1)
    cases role with
    | none => simpa [srLines, countTruthyRole] using hc
    | some r =>
      by_cases hr : r = "" <;>
        simp [srLines, countTruthyRole, hr, hc, Nat.add_comm]

theorem srLinesList_length_eq : ∀ (l : List AXNode) (d : Nat),
    (srLinesList l d).length = countTruthyRoleList l
  | [], d => by simp [srLinesList, countTruthyRoleList]
  | c :: cs, d => by
    have h1 := srLines_length_eq c d
    have h2 := srLinesList_length_eq cs d
    simp [srLinesList, countTruthyRoleList, h1, h2]

end

theorem stepHeight_terminal (steps : List (String × Step)) (f : Nat)
    (s : String) (h : terminalStep steps s = true) :
    stepHeight steps f s = some 0 := by
  cases f <;> simp [stepHeight, h]

/-- `checkKeys` compares exactly the pattern keys strictly before the
first `description` key: reaching `description` returns `true` without
looking at anything later. -/
theorem checkKeys_eq_takeWhile (a : Obj) (pat : List (String × String)) :
    checkKeys a pat =
      (pat.takeWhile (fun kv => kv.1 != "description")).all
        (fun kv => jsLookup a kv.1 == some kv.2) := by
  induction pat with
  | nil => simp [checkKeys]
  | cons kv rest ih =>
    obtain ⟨k, v⟩ := kv
    by_cases hk : k = "description"
    · simp [checkKeys, hk, List.takeWhile_cons]
    · by_cases hl : jsLookup a k = some v
      · simp [checkKeys, hk, hl, List.takeWhile_cons, ih]
      · simp [checkKeys, hk, hl, List.takeWhile_cons]

/-- Appending a `description` key at the end of a pattern never changes
what `checkKeys` decides. -/
theorem checkKeys_append_description (a : Obj) (pat : List (String × String))
    (v : String) :
    checkKeys a (pat ++ [("description", v)]) = checkKeys a pat := by
  induction pat with
  | nil => simp [checkKeys]
  | cons kv rest ih =>
    obtain ⟨k, w⟩ := kv
    by_cases hk : k = "description"
    · simp [checkKeys, hk]
    · by_cases hl : jsLookup a k = some w <;> simp [checkKeys, hk, hl, ih]

/-! ### Claim theorems -/

/-- Claim C8: `setup` clears the history and leaves it containing exactly
one system message — the priming exchange is sent with just that history
and its reply is never appended — and every `send` appends the user
message before the remote call, hands the remote call the entire history,
appends the assistant reply afterwards (growing the history by exactly
two messages), and returns the reply's text content. -/
theorem ollamaClient_history_invariant (chat : List Message → Message)
    (prompt text : String) (st : ClientState) :
    (OllamaClient.setup chat prompt st).state.messages = [⟨"system", prompt⟩] ∧
    (OllamaClient.setup chat prompt st).request = [⟨"system", prompt⟩] ∧
    (OllamaClient.send chat st text).request = st.messages ++ [⟨"user", text⟩] ∧
    (OllamaClient.send chat st text).state.messages =
      st.messages ++ [⟨"user", text⟩, chat (st.messages ++ [⟨"user", text⟩])] ∧
    (OllamaClient.send chat st text).state.messages.length =
      st.messages.length + 2 ∧
    (OllamaClient.send chat st text).reply.content =
      (chat (st.messages ++ [⟨"user", text⟩])).content :=
  ⟨rfl, rfl, rfl, by simp [OllamaClient.send], by simp [OllamaClient.send], rfl⟩

/-- Claim C1: the step prologue parses the first model reply once; a reply
that parses yields the plan after exactly one message sent and one parse
attempt; a first parse failure triggers exactly one corrective follow-up
message whose reply is parsed, a success there yielding the plan and a
second failure aborting with the unrecoverable error; in every execution
at most two messages are sent and at most two parse attempts are made. -/
theorem planParse_retry_policy (chat : List Message → Message)
    (parse : String → Option ActionPlan) (sro instruction : String)
    (st : ClientState) :
    (∀ p, parse (planSend1 chat sro instruction st).reply.content = some p →
      getActionPlan chat parse sro instruction st =
        ⟨.ok p, (planSend1 chat sro instruction st).state, 1, 1⟩) ∧
    (parse (planSend1 chat sro instruction st).reply.content = none →
      (∀ p, parse (planSend2 chat sro instruction st).reply.content = some p →
        getActionPlan chat parse sro instruction st =
          ⟨.ok p, (planSend2 chat sro instruction st).state, 2, 2⟩) ∧
      (parse (planSend2 chat sro instruction st).reply.content = none →
        getActionPlan chat parse sro instruction st =
          ⟨.error .aiDidNotComply, (planSend2 chat sro instruction st).state, 2, 2⟩)) ∧
    (getActionPlan chat parse sro instruction st).sends ≤ 2 ∧
    (getActionPlan chat parse sro instruction st).parses ≤ 2 := by
  refine ⟨fun p hp => ?_, fun h1 => ⟨fun p hp => ?_, fun h2 => ?_⟩, ?_, ?_⟩
  · simp [getActionPlan, hp]
  · simp [getActionPlan, h1, hp]
  · simp [getActionPlan, h1, h2]
  all_goals
    unfold getActionPlan
    cases h1 : parse (planSend1 chat sro instruction st).reply.content with
    | some p => simp [h1]
    | none =>
      cases h2 : parse (planSend2 chat sro instruction st).reply.content with
      | some p => simp [h1, h2]
      | none => simp [h1, h2]

/-- Witness for C1: with a chat endpoint replying `[]` and a parser that
accepts it, one message and one parse happen; with a parser on which
every reply fails, the error is raised after the second send. -/
theorem planParse_retry_policy_witness :
    getActionPlan chatEmptyArray parseEmptyArray "s" "i" initialClient =
      ⟨.ok [], (planSend1 chatEmptyArray "s" "i" initialClient).state, 1, 1⟩ ∧
    getActionPlan chatEmptyArray parseNothing "s" "i" initialClient =
      ⟨.error .aiDidNotComply,
        (planSend2 chatEmptyArray "s" "i" initialClient).state, 2, 2⟩ :=
  ⟨(planParse_retry_policy chatEmptyArray parseEmptyArray "s" "i"
      initialClient).1 [] rfl,
   ((planParse_retry_policy chatEmptyArray parseNothing "s" "i"
      initialClient).2.1 rfl).2 rfl⟩

/-- Claim C3: assertions are evaluated in declared order; if every
assertion passes, the step result is the declared `next` and every
assertion fires its success branch, in order; the first failing assertion
makes the result the sentinel `"_failed"` with exactly the passing prefix
having fired — no later assertion is evaluated, the failing assertion's
`onSuccess` is not executed, and `next` is not consulted. -/
theorem assertions_short_circuit (plan : ActionPlan) (next : String) :
    (∀ tests : List Assertion, (∀ q ∈ tests, evalAssertion plan q = true) →
      runAssertions plan next tests = (next, tests)) ∧
    (∀ (pre : List Assertion) (t : Assertion) (post : List Assertion),
      (∀ q ∈ pre, evalAssertion plan q = true) → evalAssertion plan t = false →
      runAssertions plan next (pre ++ t :: post) = ("_failed", pre)) := by
  constructor
  · intro tests h
    induction tests with
    | nil => simp [runAssertions]
    | cons q rest ih =>
      have hq := h q (by simp)
      have hrest := ih fun x hx => h x (by simp [hx])
      simp [runAssertions, hq, hrest]
  · intro pre t post hpre ht
    induction pre with
    | nil => simp [runAssertions, ht]
    | cons q rest ih =>
      have hq := hpre q (by simp)
      have hrest := ih fun x hx => hpre x (by simp [hx])
      simp [runAssertions, hq, hrest]

/-- Witness for C3: an always-passing assertion yields the declared next
step; a failing assertion in second position stops the list, with only
the first assertion fired. -/
theorem assertions_short_circuit_witness :
    runAssertions [] "nextStep" [noCondAssert] = ("nextStep", [noCondAssert]) ∧
    runAssertions [] "nextStep" [noCondAssert, neverEqualAssert, noCondAssert] =
      ("_failed", [noCondAssert]) :=
  ⟨(assertions_short_circuit [] "nextStep").1 [noCondAssert] (by decide),
   (assertions_short_circuit [] "nextStep").2 [noCondAssert] neverEqualAssert
      [noCondAssert] (by decide) (by decide)⟩

/-- Claim C6: a `responseIsEqual` assertion passes iff the plan's
canonical JSON serialization is string-equal to `testValue`; a
`responseIncludes` assertion passes iff that serialization contains
`testValue` as a substring; an assertion with an absent condition always
passes. -/
theorem response_conditions_semantics (plan : ActionPlan) (t : Assertion)
    (s : String) :
    (t.condition = some "responseIsEqual" → t.testValue = .str s →
      (evalAssertion plan t = true ↔ stringifyPlan plan = s)) ∧
    (t.condition = some "responseIncludes" → t.testValue = .str s →
      (evalAssertion plan t = true ↔
        ∃ pre post, (stringifyPlan plan).data = pre ++ s.data ++ post)) ∧
    (t.condition = none → evalAssertion plan t = true) := by
  refine ⟨fun hc hv => ?_, fun hc hv => ?_, fun hc => ?_⟩
  · simp [evalAssertion, hc, hv]
  · rw [← jsIncludes_iff (stringifyPlan plan) s]
    simp [evalAssertion, hc, hv]
  · simp [evalAssertion, hc]

/-- Witness for C6: on the empty plan, the equality condition against the
serialization `[]` and the inclusion condition are both exercised, as is
an absent condition. -/
theorem response_conditions_semantics_witness :
    (evalAssertion [] emptyPlanEqualAssert = true ↔ stringifyPlan [] = "[]") ∧
    evalAssertion [] noCondAssert = true :=
  ⟨(response_conditions_semantics [] emptyPlanEqualAssert "[]").1 rfl rfl,
   (response_conditions_semantics [] noCondAssert "[]").2.2 rfl⟩

/-- Claim C9: an `actionTaken` assertion whose pattern object has no keys
passes iff the plan is non-empty: the key loop matches every action
vacuously, so only an empty plan can fail it. -/
theorem emptyPattern_actionTaken (plan : ActionPlan) (t : Assertion)
    (hc : t.condition = some "actionTaken") (hv : t.testValue = .obj []) :
    (evalAssertion plan t = true ↔ plan ≠ []) := by
  cases plan <;> simp [evalAssertion, hc, hv, checkAction, checkKeys]

/-- Witness for C9: the empty pattern accepts the one-action plan and
rejects the empty plan. -/
theorem emptyPattern_actionTaken_witness :
    (evalAssertion linkPlan emptyPatternAssert = true ↔ linkPlan ≠ []) ∧
    (evalAssertion [] emptyPatternAssert = true ↔ ([] : ActionPlan) ≠ []) :=
  ⟨emptyPattern_actionTaken linkPlan emptyPatternAssert rfl rfl,
   emptyPattern_actionTaken [] emptyPatternAssert rfl rfl⟩

/-- Counterexample to C2: a `description` key is not a neutral wildcard.
Against the plan whose only action has role `Link`, the pattern
demanding role `Button` fails; inserting a `description` key in front of
`role` makes `checkAction` return at the `description` key before `role`
is ever compared, so the same assertion passes.  Adding a `description`
key therefore changes the pass/fail outcome, contradicting the claim. -/
theorem actionTaken_description_counterexample :
    evalAssertion linkPlan roleButtonAssert = false ∧
    evalAssertion linkPlan descFirstButtonAssert = true := by
  exact ⟨by decide, by decide⟩

/-- Claim C2 (amended): an `actionTaken` assertion passes iff at least
one action in the plan equals the pattern, by strict equality, on every
key declared before the first `description` key; reaching a `description`
key makes the action match immediately, so that key and every later one
are ignored.  In particular appending a `description` key at the end of
the pattern never changes the outcome, but inserting one before other
keys can. -/
theorem actionTaken_description_semantics (plan : ActionPlan) (t : Assertion)
    (pat : Obj) (hc : t.condition = some "actionTaken")
    (hv : t.testValue = .obj pat) :
    (evalAssertion plan t = true ↔
      ∃ a ∈ plan, ∀ kv ∈ pat.takeWhile (fun kv => kv.1 != "description"),
        jsLookup a kv.1 = some kv.2) ∧
    (∀ v, plan.any (fun a => checkAction a (.obj (pat ++ [("description", v)]))) =
      plan.any (fun a => checkAction a (.obj pat))) := by
  constructor
  · simp [evalAssertion, hc, hv, checkAction, checkKeys_eq_takeWhile,
      List.any_eq_true, List.all_eq_true]
  · intro v
    have hfun : (fun a => checkAction a (.obj (pat ++ [("description", v)]))) =
        fun a => checkAction a (.obj pat) := by
      funext a
      simp [checkAction, checkKeys_append_description]
    rw [hfun]

/-- Witness for the amended C2, at the concrete plan and pattern of the
counterexample. -/
theorem actionTaken_description_semantics_witness :
    (evalAssertion linkPlan roleButtonAssert = true ↔
      ∃ a ∈ linkPlan,
        ∀ kv ∈ ([("role", "Button")] : Obj).takeWhile (fun kv => kv.1 != "description"),
          jsLookup a kv.1 = some kv.2) ∧
    (∀ v, linkPlan.any
        (fun a => checkAction a (.obj ([("role", "Button")] ++ [("description", v)]))) =
      linkPlan.any (fun a => checkAction a (.obj [("role", "Button")]))) :=
  actionTaken_description_semantics linkPlan roleButtonAssert [("role", "Button")]
    rfl rfl

/-- Counterexample to C4: the projector guards each line with JS
truthiness, not a null check.  A node whose role is the empty string has a
non-null role (so the claim demands one line for it) yet produces no
output at all. -/
theorem projector_empty_role_counterexample :
    generateScreenReaderOutput (.mk (some "") none none none []) 0 = "" ∧
    (AXNode.mk (some "") none none none []).role = some "" ∧
    (some "" : Option String) ≠ none ∧
    countTruthyRole (.mk (some "") none none none []) = 0 :=
  ⟨rfl, rfl, by simp, rfl⟩

/-- Claim C4 (amended): the projector's output is exactly the
concatenation, over the truthy-role (non-null, non-empty-string) nodes in
pre-order, of one newline-terminated line each — the line being the
node's two-spaces-per-depth indentation followed by its phrase (see
`nodeLine`) — so the number of lines is the number of truthy-role nodes;
a node with null role contributes no line of its own but all of its
descendants are still visited; and a `heading` node with absent `level`
is phrased exactly like one with level 1. -/
theorem projector_lines_characterization (n : AXNode) (d : Nat) :
    generateScreenReaderOutput n d =
      catLines ((srLines n d).map (fun l => l ++ "\n")) ∧
    (srLines n d).length = countTruthyRole n ∧
    (∀ (name description : Option String) (level : Option Nat)
        (children : List AXNode),
      srLines (.mk none name description level children) d =
        srLinesList children (d + 1)) ∧
    (∀ (name description : Option String),
      rolePhrase "heading" name description none =
        rolePhrase "heading" name description (some 1)) :=
  ⟨generate_eq_catLines n d, srLines_length_eq n d,
   fun _name _description _level _children => by simp [srLines],
   fun _name _description => rfl⟩

/-- Claim C5: if an action's role has no entry in the role table, or no
queried element's text content, `aria-label`, or `placeholder` contains
the target as a substring, resolution yields not-found rather than an
error; the action is skipped and the loop continues with the remaining
actions; and the page contents never influence the step's branching
result or which assertions fire. -/
theorem element_not_found_skips (page : Page) (a : Obj) (rest : ActionPlan) :
    ((jsLookup a "role").bind (fun r => roleMap.lookup r) = none →
      resolveElement page a = none) ∧
    (∀ sel, (jsLookup a "role").bind (fun r => roleMap.lookup r) = some sel →
      (∀ el ∈ page sel, elementMatches el (jsTarget a) = false) →
      resolveElement page a = none) ∧
    (resolveElement page a = none →
      runActions page (a :: rest) =
        ActionOutcome.notFound (jsRole a) (jsTarget a) :: runActions page rest) ∧
    (∀ (chat : List Message → Message) (parse : String → Option ActionPlan)
        (sro : String) (step : Step) (st : ClientState) (page' : Page),
      (runScenarioStep chat parse page sro step st).map
          (fun r => (r.result, r.fired)) =
        (runScenarioStep chat parse page' sro step st).map
          (fun r => (r.result, r.fired))) := by
  refine ⟨fun h => ?_, fun sel hsel hmatch => ?_, fun h => ?_,
    fun chat parse sro step st page' => ?_⟩
  · simp [resolveElement, h]
  · simp only [resolveElement, hsel]
    exact List.find?_eq_none.mpr fun el hel => by simp [hmatch el hel]
  · simp [runActions, actionOutcome, h]
  · unfold runScenarioStep
    cases h : (getActionPlan chat parse sro step.instruction st).result <;>
      simp [h, Except.map]

/-- Witness for C5: an action whose role has no `roleMap` entry resolves
to not-found on the empty page and is skipped while the loop continues. -/
theorem element_not_found_skips_witness :
    resolveElement emptyPage unmappedRoleAction = none ∧
    runActions emptyPage [unmappedRoleAction] =
      [ActionOutcome.notFound (jsRole unmappedRoleAction)
        (jsTarget unmappedRoleAction)] := by
  have h := element_not_found_skips emptyPage unmappedRoleAction []
  refine ⟨h.1 (by decide), ?_⟩
  rw [h.2.2.1 (h.1 (by decide))]
  rfl

/-- Claim C10: the two drivers are not behaviorally equivalent on a
failing step.  With the same failing success condition and the same
one-click plan, the `src/server.js` driver checks the condition before
the action loop and returns `"_failed"` with no action executed, while
the multi-assertion driver executes every action of the plan (here all
one of them) before evaluating any assertion. -/
theorem driver_order_divergence :
    (serverRunStep chatPlanMarker parsePlanMarker submitPage "sro"
        submitServerStep initialClient).toOption.map
        (fun r => (r.result, r.outcomes)) = some ("_failed", []) ∧
    (runScenarioStep chatPlanMarker parsePlanMarker submitPage "sro"
        submitStep initialClient).toOption.map
        (fun r => (r.result, r.outcomes)) =
      some ("_failed", [ActionOutcome.clicked "Button" "Submit"]) ∧
    submitClickPlan.length = 1 :=
  ⟨by decide, by decide, rfl⟩

/-- The multi-assertion driver's step result is always either the step's
declared `next` or the sentinel `"_failed"`. -/
theorem runScenarioStep_result (chat : List Message → Message)
    (parse : String → Option ActionPlan) (page : Page) (sro : String)
    (step : Step) (st : ClientState) (r : StepRun)
    (h : runScenarioStep chat parse page sro step st = .ok r) :
    r.result = step.next ∨ r.result = "_failed" := by
  unfold runScenarioStep at h
  split at h
  · cases h
  · cases h
    exact runAssertions_result _ step.next step.success

/-- At a terminal name (falsy, reserved, or unknown in the table) the loop
exits at once with the current iteration count. -/
theorem mainLoop_terminal (steps : List (String × Step)) (env : Nat → StepEnv)
    (g : Nat) (s : String) (url : Option String) (st : ClientState) (k : Nat)
    (ht : terminalStep steps s = true) (hg : 0 < g) :
    mainLoop steps env g s url st k = some (.finished s k) := by
  obtain ⟨g', rfl⟩ : ∃ g', g = g' + 1 := ⟨g - 1, by omega⟩
  simp only [terminalStep, Bool.or_eq_true, decide_eq_true_eq,
    Option.isNone_iff_eq_none] at ht
  unfold mainLoop
  by_cases hname : s = "" ∨ s = "_end" ∨ s = "_failed"
  · rcases hname with h' | h' | h' <;> simp [h']
  · have h : List.lookup s steps = none := by tauto
    push_neg at hname
    obtain ⟨h1, h2, h3⟩ := hname
    cases url <;> simp [h1, h2, h3, h]

/-- Fuel-indexed bound for the scenario loop: whenever `stepHeight`
assigns a longest-path length `L` to the current state, any fuel above `L`
makes the loop return, after at most `L` further iterations. -/
theorem mainLoop_bounded (steps : List (String × Step)) (env : Nat → StepEnv) :
    ∀ (f : Nat) (s : String) (L : Nat) (url : Option String)
      (st : ClientState) (k g : Nat),
      stepHeight steps f s = some L → L < g →
      ∃ r, mainLoop steps env g s url st k = some r ∧ RunExit.iters r ≤ k + L := by
  intro f
  induction f with
  | zero =>
    intro s L url st k g hh hg
    by_cases ht : terminalStep steps s = true
    · rw [stepHeight, if_pos ht] at hh
      obtain rfl : (0 : Nat) = L := by injection hh
      exact ⟨.finished s k, mainLoop_terminal steps env g s url st k ht (by omega),
        by simp [RunExit.iters]⟩
    · rw [stepHeight, if_neg ht] at hh
      cases hh
  | succ f ih =>
    intro s L url st k g hh hg
    by_cases ht : terminalStep steps s = true
    · rw [stepHeight, if_pos ht] at hh
      obtain rfl : (0 : Nat) = L := by injection hh
      exact ⟨.finished s k, mainLoop_terminal steps env g s url st k ht (by omega),
        by simp [RunExit.iters]⟩
    · rw [stepHeight, if_neg ht] at hh
      split at hh
      · rename_i hlook
        exact absurd (by simp [terminalStep, hlook]) ht
      · rename_i so hlook
        obtain ⟨hL, hnext, hLeq⟩ := Option.map_eq_some'.mp hh
        obtain rfl : hL + 1 = L := hLeq
        have hname : ¬ (s = "" ∨ s = "_end" ∨ s = "_failed") := by
          intro hcon
          apply ht
          simp only [terminalStep, Bool.or_eq_true, decide_eq_true_eq]
          tauto
        push_neg at hname
        obtain ⟨h1, h2, h3⟩ := hname
        obtain ⟨g', rfl⟩ : ∃ g', g = g' + 1 := ⟨g - 1, by omega⟩
        unfold mainLoop
        rw [if_neg (by simp [h1, h2, h3])]
        rw [hlook]
        cases hurl : (match so.url with
          | some u => some u
          | none => url) with
        | none =>
          refine ⟨.finished s k, ?_, by simp [RunExit.iters]⟩
          simp [hurl]
        | some u =>
          simp only [hurl]
          cases hrun : runScenarioStep (env k).chat (env k).parse (env k).page
              (screenReaderProjection (env k).tree) so st with
          | error e =>
            refine ⟨.fatal k, by simp, by simp [RunExit.iters]⟩
          | ok r =>
            rcases runScenarioStep_result (env k).chat (env k).parse
                (env k).page (screenReaderProjection (env k).tree) so st r hrun
                with hres | hres
            · obtain ⟨r', hr', hi⟩ := ih so.next hL (some u) r.client (k + 1) g'
                hnext (by omega)
              refine ⟨r', ?_, by omega⟩
              simp only [hres]
              exact hr'
            · have hterm : terminalStep steps "_failed" = true := by
                simp [terminalStep]
              obtain ⟨r', hr', hi⟩ := ih "_failed" 0 (some u) r.client (k + 1) g'
                (by
                  cases f with
                  | zero => simp [stepHeight, hterm]
                  | succ f' => simp [stepHeight, hterm])
                (by omega)
              refine ⟨r', ?_, by omega⟩
              simp only [hres]
              exact hr'

/-- Claim C7: if the `next`-pointer graph reachable from `_start` reaches
a terminal state (equivalently, its only cycles pass through the
terminals `_failed`/`_end`), then `stepHeight` assigns `_start` the length
`L` of its longest path to a terminal state, fuel `L + 1` suffices for the
loop to return, and the run executes at most `L` steps. -/
theorem state_machine_termination (steps : List (String × Step))
    (env : Nat → StepEnv) (f L : Nat)
    (h : stepHeight steps f "_start" = some L) :
    ∃ r, mainLoop steps env (L + 1) "_start" none initialClient 0 = some r ∧
      RunExit.iters r ≤ L := by
  obtain ⟨r, hr, hi⟩ := mainLoop_bounded steps env f "_start" L none
    initialClient 0 (L + 1) h (by omega)
  exact ⟨r, hr, by simpa using hi⟩

/-- Witness for C7: the one-step graph `_start → _end` has longest path
length 1 and its run exits within one iteration. -/
theorem state_machine_termination_witness :
    ∃ r, mainLoop straightSteps straightEnv 2 "_start" none initialClient 0 =
      some r ∧ RunExit.iters r ≤ 1 :=
  state_machine_termination straightSteps straightEnv 2 1 (by decide)
